import Mathlib

/-!
Shallow embedding of the in-memory ToDo store of `src/main.py`.

Modelling choices:
* Python dicts preserve insertion order, and ids are assigned from a
  strictly increasing counter, so `self._tasks` / `self.users` are modelled
  as Lean lists in insertion (= creation) order; a dict lookup by id is
  `List.find?` on the id field, and in-place mutation of a task dict is a
  positional `List.map` replacement.
* Timestamps (`datetime.now(timezone.utc)`) are modelled as natural numbers
  supplied explicitly to each operation that calls `now_utc()`.
* `raise KeyError` / `raise ValueError` are modelled by the `Err` type;
  every operation returns the (possibly mutated) store alongside an
  `Except Err` result, mirroring the source's control flow: the store
  component reflects exactly the mutations performed before a `raise`.
-/

namespace TodoUsers

/-- Task status enumeration `TaskStatus = Literal["queued", "done", "cancelled"]`. -/
inductive TaskStatus where
  | queued
  | done
  | cancelled
deriving DecidableEq, Repr

/-- A user record `{"id": ..., "username": ...}` (src/main.py line 109). -/
structure User where
  id : Nat
  username : String
deriving DecidableEq, Repr

/-- A task record (src/main.py lines 58-66). -/
structure Task where
  id : Nat
  owner_id : Nat
  title : String
  description : Option String
  status : TaskStatus
  created_at : Nat
  updated_at : Nat
deriving DecidableEq, Repr

/-- The patch dict passed to `Store.patch_task`: each of the three patchable
keys is either absent (`none`) or present with a value.  The outer `Option`
on `description` is presence; the inner one is the nullable value itself. -/
structure TaskPatch where
  title : Option String
  description : Option (Option String)
  status : Option TaskStatus
deriving DecidableEq, Repr

/-- The empty patch `{}`, as produced by `dto.model_dump(exclude_unset=True)`
for a PATCH request whose JSON body sets no field. -/
def TaskPatch.empty : TaskPatch := ⟨none, none, none⟩

/-- Exceptions the Store raises: `KeyError` (not found) and `ValueError`
(username conflict). -/
inductive Err where
  | notFound
  | conflict
deriving DecidableEq, Repr

/-- The `Store` state (src/main.py lines 41-47): `self.users`,
`self._tasks` (insertion-ordered), `self._task_id_seq`, `self.user_id`.
The asyncio lock has no observable state and is not modelled. -/
structure Store where
  users : List User
  tasks : List Task
  task_id_seq : Nat
  user_id : Nat
deriving DecidableEq, Repr

/-- A freshly constructed `Store()`. -/
def Store.fresh : Store := ⟨[], [], 0, 0⟩

/-- Membership test `owner_id in self.users` (a dict keyed by user id). -/
def Store.hasUserId (s : Store) (uid : Nat) : Bool :=
  s.users.any (fun u => u.id == uid)

/-- `Store.create_task` (src/main.py lines 49-69): check the owner, then
increment the sequence, build the task with both timestamps `now`, insert. -/
def Store.create_task (s : Store) (owner_id : Nat) (title : String)
    (description : Option String) (now : Nat) : Except Err Task × Store :=
  if s.hasUserId owner_id then
    let tid := s.task_id_seq + 1
    let task : Task := ⟨tid, owner_id, title, description, TaskStatus.queued, now, now⟩
    (Except.ok task, { s with task_id_seq := tid, tasks := s.tasks ++ [task] })
  else
    (Except.error Err.notFound, s)

/-- `Store.list_tasks` (src/main.py lines 71-76): all tasks in insertion
order, optionally filtered by owner. -/
def Store.list_tasks (s : Store) (owner_id : Option Nat) : List Task :=
  match owner_id with
  | none => s.tasks
  | some oid => s.tasks.filter (fun t => t.owner_id == oid)

/-- `Store.get_task` (src/main.py lines 78-80): `self._tasks.get(task_id)`.
A task dict always has seven keys, so the handlers' `if not task:` truthiness
test coincides with a `None` test. -/
def Store.get_task (s : Store) (task_id : Nat) : Option Task :=
  s.tasks.find? (fun t => t.id == task_id)

/-- The `for k in ("title", "description", "status")` loop of
`Store.patch_task` (src/main.py lines 88-90): assign exactly the keys
present in the patch, in that order. -/
def Task.applyPatch (t : Task) (p : TaskPatch) : Task :=
  let t1 := match p.title with
    | some v => { t with title := v }
    | none => t
  let t2 := match p.description with
    | some v => { t1 with description := v }
    | none => t1
  match p.status with
  | some v => { t2 with status := v }
  | none => t2

/-- `Store.patch_task` (src/main.py lines 82-93): look up the task, raise
`KeyError` if absent, otherwise assign the present keys, refresh
`updated_at`, and return the mutated task (mutation in place keeps its
position in the insertion order). -/
def Store.patch_task (s : Store) (task_id : Nat) (p : TaskPatch) (now : Nat) :
    Except Err Task × Store :=
  match s.tasks.find? (fun t => t.id == task_id) with
  | none => (Except.error Err.notFound, s)
  | some t =>
    let t' : Task := { t.applyPatch p with updated_at := now }
    (Except.ok t',
      { s with tasks := s.tasks.map (fun u => if u.id == task_id then t' else u) })

/-- `Store.delete_task` (src/main.py lines 95-99): raise `KeyError` if the
id is absent, otherwise pop the task. -/
def Store.delete_task (s : Store) (task_id : Nat) : Except Err Unit × Store :=
  if s.tasks.any (fun t => t.id == task_id) then
    (Except.ok (), { s with tasks := s.tasks.filter (fun t => t.id != task_id) })
  else
    (Except.error Err.notFound, s)

/-- `Store.cancel_task` (src/main.py lines 101-102): delegate to
`patch_task` with the dict `{"status": "cancelled"}`. -/
def Store.cancel_task (s : Store) (task_id : Nat) (now : Nat) : Except Err Task × Store :=
  s.patch_task task_id ⟨none, none, some TaskStatus.cancelled⟩ now

/-- `Store.create_user` (src/main.py lines 104-111): scan all current
usernames, raise `ValueError` on a duplicate, otherwise increment the user
counter and insert the new user. -/
def Store.create_user (s : Store) (username : String) : Except Err User × Store :=
  if s.users.any (fun u => u.username == username) then
    (Except.error Err.conflict, s)
  else
    let uid := s.user_id + 1
    let user : User := ⟨uid, username⟩
    (Except.ok user, { s with user_id := uid, users := s.users ++ [user] })

/-- `Store.list_users` (src/main.py lines 113-115). -/
def Store.list_users (s : Store) : List User := s.users

/-- `Store.get_user` (src/main.py lines 117-119). -/
def Store.get_user (s : Store) (user_id : Nat) : Option User :=
  s.users.find? (fun u => u.id == user_id)

/-!
HTTP layer (src/main.py lines 125-175).  A handler is modelled as a function
from the store and request data to the HTTP status code and the store after
the call.  Per the framework, an exception that escapes a handler produces a
500 response; handlers that catch the Store's exception map it themselves.
-/

/-- `POST /users` (src/main.py lines 130-135): catches `ValueError` and maps
it to 409; success is 201. -/
def http_create_user (s : Store) (username : String) : Nat × Store :=
  match s.create_user username with
  | (Except.ok _, s') => (201, s')
  | (Except.error _, s') => (409, s')

/-- `POST /tasks` (src/main.py lines 141-143): the handler wraps the call in
no try/except, so the `KeyError` raised for an unknown owner escapes the
handler and the framework answers 500; success is 201. -/
def http_create_task (s : Store) (owner_id : Nat) (title : String)
    (description : Option String) (now : Nat) : Nat × Store :=
  match s.create_task owner_id title description now with
  | (Except.ok _, s') => (201, s')
  | (Except.error _, s') => (500, s')

/-- `PATCH /tasks/{task_id}` (src/main.py lines 152-158): catches `KeyError`
and maps it to 404; success is 200. -/
def http_patch_task (s : Store) (task_id : Nat) (p : TaskPatch) (now : Nat) : Nat × Store :=
  match s.patch_task task_id p now with
  | (Except.ok _, s') => (200, s')
  | (Except.error _, s') => (404, s')

/-- `DELETE /tasks/{task_id}` (src/main.py lines 161-167): catches
`KeyError` and maps it to 404; success is 204. -/
def http_delete_task (s : Store) (task_id : Nat) : Nat × Store :=
  match s.delete_task task_id with
  | (Except.ok _, s') => (204, s')
  | (Except.error _, s') => (404, s')

/-- `POST /tasks/{task_id}/cancel` (src/main.py lines 170-175): catches
`KeyError` and maps it to 404; success is 200. -/
def http_cancel_task (s : Store) (task_id : Nat) (now : Nat) : Nat × Store :=
  match s.cancel_task task_id now with
  | (Except.ok _, s') => (200, s')
  | (Except.error _, s') => (404, s')

/-!
Traces of Store operations, for reachability invariants.
-/

/-- One Store operation together with its request data; mutating operations
that read the clock carry the `now` value their call to `now_utc()` returns. -/
inductive Op where
  | createUser (username : String)
  | createTask (owner_id : Nat) (title : String) (description : Option String) (now : Nat)
  | patchTask (task_id : Nat) (p : TaskPatch) (now : Nat)
  | deleteTask (task_id : Nat)
  | cancelTask (task_id : Nat) (now : Nat)
deriving DecidableEq, Repr

/-- The store state after one operation (the operation's own result is
dropped; a raised exception leaves the state as the operation left it). -/
def Store.step (s : Store) : Op → Store
  | Op.createUser un => (s.create_user un).2
  | Op.createTask oid ti d n => (s.create_task oid ti d n).2
  | Op.patchTask tid p n => (s.patch_task tid p n).2
  | Op.deleteTask tid => (s.delete_task tid).2
  | Op.cancelTask tid n => (s.cancel_task tid n).2

/-- Run a sequence of operations from a given state. -/
def applyOps (s : Store) (ops : List Op) : Store := ops.foldl Store.step s

/-- The task produced by a successful `patch_task` on stored task `t`: the
present patch fields assigned, then `updated_at` refreshed
(src/main.py lines 88-92). -/
def patchResult (t : Task) (p : TaskPatch) (now : Nat) : Task :=
  { t.applyPatch p with updated_at := now }

/-!
Helper lemmas about `Task.applyPatch`.
-/

theorem Task.applyPatch_id (t : Task) (p : TaskPatch) : (t.applyPatch p).id = t.id := by
  rcases p with ⟨pt, pd, ps⟩
  cases pt <;> cases pd <;> cases ps <;> rfl

theorem Task.applyPatch_owner_id (t : Task) (p : TaskPatch) :
    (t.applyPatch p).owner_id = t.owner_id := by
  rcases p with ⟨pt, pd, ps⟩
  cases pt <;> cases pd <;> cases ps <;> rfl

theorem Task.applyPatch_created_at (t : Task) (p : TaskPatch) :
    (t.applyPatch p).created_at = t.created_at := by
  rcases p with ⟨pt, pd, ps⟩
  cases pt <;> cases pd <;> cases ps <;> rfl

theorem Task.applyPatch_title (t : Task) (p : TaskPatch) :
    (t.applyPatch p).title = p.title.getD t.title := by
  rcases p with ⟨pt, pd, ps⟩
  cases pt <;> cases pd <;> cases ps <;> rfl

theorem Task.applyPatch_description (t : Task) (p : TaskPatch) :
    (t.applyPatch p).description = p.description.getD t.description := by
  rcases p with ⟨pt, pd, ps⟩
  cases pt <;> cases pd <;> cases ps <;> rfl

theorem Task.applyPatch_status (t : Task) (p : TaskPatch) :
    (t.applyPatch p).status = p.status.getD t.status := by
  rcases p with ⟨pt, pd, ps⟩
  cases pt <;> cases pd <;> cases ps <;> rfl

/-!
Concrete states used by witnesses.
-/

/-- A concrete task, as produced by `create_task` for user 1. -/
def tDemo : Task := ⟨1, 1, "a", none, TaskStatus.queued, 0, 0⟩

/-- A concrete store holding two users and three tasks. -/
def sDemo : Store :=
  ⟨[⟨1, "alice"⟩, ⟨2, "bob"⟩],
   [tDemo,
    ⟨2, 2, "b", none, TaskStatus.done, 1, 1⟩,
    ⟨3, 1, "c", some "d", TaskStatus.cancelled, 2, 3⟩],
   3, 2⟩

/-- A concrete patch setting `title` and `status` but not `description`. -/
def pDemo : TaskPatch := ⟨some "new", none, some TaskStatus.done⟩

/-!
Claim C5.
-/

/-- C5: for every Store state and every owner id X, `list_tasks(X)` is
exactly the order-preserving filter of `list_tasks()` keeping the tasks
whose `owner_id` equals X. -/
theorem list_tasks_filter_of_list_tasks (s : Store) (oid : Nat) :
    s.list_tasks (some oid) = (s.list_tasks none).filter (fun t => t.owner_id == oid) := rfl

/-- Witness for C5 at a concrete store and owner id. -/
theorem list_tasks_filter_of_list_tasks_witness :
    sDemo.list_tasks (some 1) = (sDemo.list_tasks none).filter (fun t => t.owner_id == 1) :=
  list_tasks_filter_of_list_tasks sDemo 1

/-!
Claim C6.
-/

/-- C6: for every task id and store state, `cancel_task(id)` returns the
same result and the same resulting store as
`patch_task(id, {status: cancelled})` — the same task and state on
success, the same NotFound failure when the id is unknown. -/
theorem cancel_task_eq_patch_cancelled (s : Store) (tid now : Nat) :
    s.cancel_task tid now = s.patch_task tid ⟨none, none, some TaskStatus.cancelled⟩ now := rfl

/-- Witness for C6 at a concrete store and task id. -/
theorem cancel_task_eq_patch_cancelled_witness :
    sDemo.cancel_task 2 7 = sDemo.patch_task 2 ⟨none, none, some TaskStatus.cancelled⟩ 7 :=
  cancel_task_eq_patch_cancelled sDemo 2 7

/-!
Claim C1.  The claim asserts that POST /tasks answers 404 for an unknown
owner; the Store does raise its NotFound signal (`KeyError`), but the
`create_task` handler (src/main.py lines 141-143) wraps the call in no
try/except, so the exception escapes and the response is 500.
-/

/-- C1 (refuted at the HTTP layer): on a fresh store, `create_task` with the
unknown owner id 1 raises the NotFound signal, yet POST /tasks answers 500,
not the 404 the claim states. -/
theorem create_task_unknown_owner_http_500 :
    (Store.fresh.create_task 1 "t" none 0).1 = Except.error Err.notFound ∧
    http_create_task Store.fresh 1 "t" none 0 = (500, Store.fresh) ∧
    (http_create_task Store.fresh 1 "t" none 0).1 ≠ 404 := by
  refine ⟨rfl, rfl, ?_⟩
  decide

/-!
Claim C10.
-/

/-- C10: patching an existing task with the empty patch (a PATCH request
with an empty JSON body) succeeds, leaves `title`, `description` and
`status` (indeed every field but `updated_at`) unchanged, and still sets
`updated_at` to the current time. -/
theorem patch_task_empty_patch (s : Store) (tid : Nat) (t : Task) (now : Nat)
    (h : s.get_task tid = some t) :
    s.patch_task tid TaskPatch.empty now =
      (Except.ok { t with updated_at := now },
       { s with tasks :=
          s.tasks.map (fun u => if u.id == tid then { t with updated_at := now } else u) }) := by
  unfold Store.get_task at h
  unfold Store.patch_task
  rw [h]
  rfl

/-- Witness for C10: an empty patch on task 1 of the demo store. -/
theorem patch_task_empty_patch_witness :
    sDemo.patch_task 1 TaskPatch.empty 9 =
      (Except.ok { tDemo with updated_at := 9 },
       { sDemo with tasks :=
          sDemo.tasks.map (fun u => if u.id == 1 then { tDemo with updated_at := 9 } else u) }) :=
  patch_task_empty_patch sDemo 1 tDemo 9 (by decide)

/-!
Claim C3.
-/

/-- C3: `patch_task` fails with NotFound when the id is unknown; on an
existing task it returns exactly the stored task with the present patch
fields assigned and `updated_at := now`, leaving `id`, `owner_id`,
`created_at` and every absent patchable field unchanged, and the resulting
store replaces only that task in place (users and counters untouched). -/
theorem patch_task_spec (s : Store) (tid : Nat) (p : TaskPatch) (now : Nat) :
    (s.get_task tid = none → s.patch_task tid p now = (Except.error Err.notFound, s)) ∧
    (∀ t, s.get_task tid = some t →
      s.patch_task tid p now =
        (Except.ok (patchResult t p now),
         { s with tasks := s.tasks.map (fun u => if u.id == tid then patchResult t p now else u) }) ∧
      (patchResult t p now).id = t.id ∧
      (patchResult t p now).owner_id = t.owner_id ∧
      (patchResult t p now).created_at = t.created_at ∧
      (patchResult t p now).title = p.title.getD t.title ∧
      (patchResult t p now).description = p.description.getD t.description ∧
      (patchResult t p now).status = p.status.getD t.status ∧
      (patchResult t p now).updated_at = now) := by
  constructor
  · intro h
    unfold Store.get_task at h
    unfold Store.patch_task
    rw [h]
  · intro t h
    unfold Store.get_task at h
    refine ⟨?_, Task.applyPatch_id t p, Task.applyPatch_owner_id t p,
      Task.applyPatch_created_at t p, Task.applyPatch_title t p,
      Task.applyPatch_description t p, Task.applyPatch_status t p, rfl⟩
    unfold Store.patch_task
    rw [h]
    rfl

/-- Witness for C3: patching task 1 of the demo store with a patch that
sets `title` and `status` but not `description`. -/
theorem patch_task_spec_witness :
    sDemo.patch_task 1 pDemo 9 =
      (Except.ok (patchResult tDemo pDemo 9),
       { sDemo with tasks :=
          sDemo.tasks.map (fun u => if u.id == 1 then patchResult tDemo pDemo 9 else u) }) ∧
    (patchResult tDemo pDemo 9).id = tDemo.id ∧
    (patchResult tDemo pDemo 9).owner_id = tDemo.owner_id ∧
    (patchResult tDemo pDemo 9).created_at = tDemo.created_at ∧
    (patchResult tDemo pDemo 9).title = pDemo.title.getD tDemo.title ∧
    (patchResult tDemo pDemo 9).description = pDemo.description.getD tDemo.description ∧
    (patchResult tDemo pDemo 9).status = pDemo.status.getD tDemo.status ∧
    (patchResult tDemo pDemo 9).updated_at = 9 :=
  (patch_task_spec sDemo 1 pDemo 9).2 tDemo (by decide)

/-!
Claim C7.  In the source every check precedes every mutation inside the
critical section, so a raising operation leaves the store exactly as it
was; the store component returned by each embedded operation reflects the
mutations performed up to the raise.
-/

theorem create_user_err_frame (s : Store) (un : String) (e : Err)
    (h : (s.create_user un).1 = Except.error e) : (s.create_user un).2 = s := by
  by_cases hc : s.users.any (fun u => u.username == un) = true
  · simp [Store.create_user, hc]
  · simp [Store.create_user, hc] at h

theorem create_task_err_frame (s : Store) (oid : Nat) (ti : String) (d : Option String)
    (n : Nat) (e : Err) (h : (s.create_task oid ti d n).1 = Except.error e) :
    (s.create_task oid ti d n).2 = s := by
  by_cases hc : s.hasUserId oid = true
  · simp [Store.create_task, hc] at h
  · simp [Store.create_task, hc]

theorem patch_task_err_frame (s : Store) (tid : Nat) (p : TaskPatch) (n : Nat) (e : Err)
    (h : (s.patch_task tid p n).1 = Except.error e) : (s.patch_task tid p n).2 = s := by
  unfold Store.patch_task at h ⊢
  cases hf : s.tasks.find? (fun t => t.id == tid) with
  | none => rfl
  | some t => rw [hf] at h; exact absurd h (by simp)

theorem delete_task_err_frame (s : Store) (tid : Nat) (e : Err)
    (h : (s.delete_task tid).1 = Except.error e) : (s.delete_task tid).2 = s := by
  by_cases hc : s.tasks.any (fun t => t.id == tid) = true
  · simp [Store.delete_task, hc] at h
  · simp [Store.delete_task, hc]

theorem cancel_task_err_frame (s : Store) (tid : Nat) (n : Nat) (e : Err)
    (h : (s.cancel_task tid n).1 = Except.error e) : (s.cancel_task tid n).2 = s :=
  patch_task_err_frame s tid ⟨none, none, some TaskStatus.cancelled⟩ n e h

/-- C7: whenever a Store operation fails, the store after the call equals
the store before it — no counter advanced, no record created, mutated or
removed. -/
theorem failure_no_mutation (s : Store) :
    (∀ un e, (s.create_user un).1 = Except.error e → (s.create_user un).2 = s) ∧
    (∀ oid ti d n e, (s.create_task oid ti d n).1 = Except.error e →
        (s.create_task oid ti d n).2 = s) ∧
    (∀ tid p n e, (s.patch_task tid p n).1 = Except.error e → (s.patch_task tid p n).2 = s) ∧
    (∀ tid e, (s.delete_task tid).1 = Except.error e → (s.delete_task tid).2 = s) ∧
    (∀ tid n e, (s.cancel_task tid n).1 = Except.error e → (s.cancel_task tid n).2 = s) :=
  ⟨fun un e h => create_user_err_frame s un e h,
   fun oid ti d n e h => create_task_err_frame s oid ti d n e h,
   fun tid p n e h => patch_task_err_frame s tid p n e h,
   fun tid e h => delete_task_err_frame s tid e h,
   fun tid n e h => cancel_task_err_frame s tid n e h⟩

/-- Witness for C7: each operation, at an input where it does fail, leaves
the store unchanged. -/
theorem failure_no_mutation_witness :
    (sDemo.create_user "alice").2 = sDemo ∧
    (Store.fresh.create_task 1 "t" none 0).2 = Store.fresh ∧
    (Store.fresh.patch_task 1 TaskPatch.empty 0).2 = Store.fresh ∧
    (Store.fresh.delete_task 1).2 = Store.fresh ∧
    (Store.fresh.cancel_task 1 0).2 = Store.fresh :=
  ⟨(failure_no_mutation sDemo).1 "alice" Err.conflict rfl,
   (failure_no_mutation Store.fresh).2.1 1 "t" none 0 Err.notFound rfl,
   (failure_no_mutation Store.fresh).2.2.1 1 TaskPatch.empty 0 Err.notFound rfl,
   (failure_no_mutation Store.fresh).2.2.2.1 1 Err.notFound rfl,
   (failure_no_mutation Store.fresh).2.2.2.2 1 0 Err.notFound rfl⟩

/-!
Claim C4.
-/

/-- C4: if `create_user(username)` succeeds, a second call with the same
username fails with the Conflict signal (mapped to HTTP 409 by POST /users)
and leaves the store unchanged, and across the two calls the user count
grows by exactly one. -/
theorem create_user_unique (s : Store) (un : String) (u : User) (s' : Store)
    (h : s.create_user un = (Except.ok u, s')) :
    (s'.create_user un).1 = Except.error Err.conflict ∧
    (s'.create_user un).2 = s' ∧
    s'.users.length = s.users.length + 1 ∧
    http_create_user s' un = (409, s') := by
  unfold Store.create_user at h
  by_cases hc : s.users.any (fun v => v.username == un) = true
  · rw [if_pos hc] at h
    exact absurd (congrArg Prod.fst h) (by simp)
  · rw [if_neg hc] at h
    injection h with h1 h2
    have hs2 : s'.users = s.users ++ [⟨s.user_id + 1, un⟩] := by rw [← h2]
    have hdup : s'.users.any (fun v => v.username == un) = true := by
      rw [hs2]
      simp [List.any_append]
    refine ⟨?_, ?_, ?_, ?_⟩
    · simp [Store.create_user, hdup]
    · simp [Store.create_user, hdup]
    · rw [hs2]
      simp
    · simp [http_create_user, Store.create_user, hdup]

/-- Witness for C4: creating "ab" twice on a fresh store. -/
theorem create_user_unique_witness :
    ((⟨[⟨1, "ab"⟩], [], 0, 1⟩ : Store).create_user "ab").1 = Except.error Err.conflict ∧
    ((⟨[⟨1, "ab"⟩], [], 0, 1⟩ : Store).create_user "ab").2 = (⟨[⟨1, "ab"⟩], [], 0, 1⟩ : Store) ∧
    (⟨[⟨1, "ab"⟩], [], 0, 1⟩ : Store).users.length = Store.fresh.users.length + 1 ∧
    http_create_user ⟨[⟨1, "ab"⟩], [], 0, 1⟩ "ab" = (409, (⟨[⟨1, "ab"⟩], [], 0, 1⟩ : Store)) :=
  create_user_unique Store.fresh "ab" ⟨1, "ab"⟩ ⟨[⟨1, "ab"⟩], [], 0, 1⟩ rfl

/-!
Claim C8: referential integrity of `owner_id` in every reachable state.
-/

/-- Referential integrity: every stored task's `owner_id` is the id of a
user currently present in the users map. -/
def ownersValid (s : Store) : Bool :=
  s.tasks.all (fun t => s.hasUserId t.owner_id)

theorem ownersValid_create_user (s : Store) (un : String)
    (h : ownersValid s = true) : ownersValid (s.create_user un).2 = true := by
  by_cases hc : s.users.any (fun u => u.username == un) = true
  · simpa [Store.create_user, hc] using h
  · unfold ownersValid Store.hasUserId at h ⊢
    rw [List.all_eq_true] at h ⊢
    intro t ht
    simp only [Store.create_user, if_neg hc] at ht ⊢
    have hmem := h t (by simpa using ht)
    simp [List.any_append, hmem]

theorem ownersValid_create_task (s : Store) (oid : Nat) (ti : String) (d : Option String)
    (n : Nat) (h : ownersValid s = true) : ownersValid (s.create_task oid ti d n).2 = true := by
  by_cases hc : s.hasUserId oid = true
  · unfold ownersValid Store.hasUserId at h ⊢
    rw [List.all_eq_true] at h ⊢
    intro t ht
    simp only [Store.create_task, if_pos hc] at ht ⊢
    have ht' : t ∈ s.tasks ∨ t = ⟨s.task_id_seq + 1, oid, ti, d, TaskStatus.queued, n, n⟩ := by
      simpa using ht
    rcases ht' with h1 | h1
    · exact h t h1
    · subst h1
      simpa [Store.hasUserId] using hc
  · simpa [Store.create_task, hc] using h

theorem ownersValid_patch_task (s : Store) (tid : Nat) (p : TaskPatch) (n : Nat)
    (h : ownersValid s = true) : ownersValid (s.patch_task tid p n).2 = true := by
  unfold Store.patch_task
  cases hf : s.tasks.find? (fun x => x.id == tid) with
  | none => exact h
  | some t =>
    have htmem : t ∈ s.tasks := List.mem_of_find?_eq_some hf
    unfold ownersValid Store.hasUserId at h ⊢
    rw [List.all_eq_true] at h ⊢
    intro x hx
    rw [List.mem_map] at hx
    obtain ⟨a, ha, hax⟩ := hx
    by_cases hid : (a.id == tid) = true
    · rw [if_pos hid] at hax
      rw [← hax]
      simpa [Task.applyPatch_owner_id] using h t htmem
    · rw [if_neg hid] at hax
      rw [← hax]
      exact h a ha

theorem ownersValid_delete_task (s : Store) (tid : Nat)
    (h : ownersValid s = true) : ownersValid (s.delete_task tid).2 = true := by
  by_cases hc : s.tasks.any (fun t => t.id == tid) = true
  · unfold ownersValid Store.hasUserId at h ⊢
    rw [List.all_eq_true] at h ⊢
    intro t ht
    simp only [Store.delete_task, if_pos hc] at ht ⊢
    exact h t (List.mem_of_mem_filter ht)
  · simpa [Store.delete_task, hc] using h

theorem ownersValid_step (s : Store) (op : Op) (h : ownersValid s = true) :
    ownersValid (s.step op) = true := by
  cases op with
  | createUser un => exact ownersValid_create_user s un h
  | createTask oid ti d n => exact ownersValid_create_task s oid ti d n h
  | patchTask tid p n => exact ownersValid_patch_task s tid p n h
  | deleteTask tid => exact ownersValid_delete_task s tid h
  | cancelTask tid n => exact ownersValid_patch_task s tid ⟨none, none, some TaskStatus.cancelled⟩ n h

theorem ownersValid_applyOps (ops : List Op) :
    ∀ s : Store, ownersValid s = true → ownersValid (applyOps s ops) = true := by
  induction ops with
  | nil => intro s h; exact h
  | cons op rest ih => intro s h; exact ih (s.step op) (ownersValid_step s op h)

/-- C8: in every store state reachable from a fresh store by any sequence of
operations, every stored task's `owner_id` references a user present in the
users map. -/
theorem reachable_referential_integrity (ops : List Op) :
    ownersValid (applyOps Store.fresh ops) = true :=
  ownersValid_applyOps ops Store.fresh rfl

/-- Witness for C8 on a concrete trace with a creation, a deletion and a
cancellation. -/
theorem reachable_referential_integrity_witness :
    ownersValid (applyOps Store.fresh
      [Op.createUser "ivan", Op.createTask 1 "milk" none 0, Op.deleteTask 1,
       Op.createTask 1 "bread" (some "rye") 2, Op.cancelTask 2 3]) = true :=
  reachable_referential_integrity
    [Op.createUser "ivan", Op.createTask 1 "milk" none 0, Op.deleteTask 1,
     Op.createTask 1 "bread" (some "rye") 2, Op.cancelTask 2 3]

/-!
Claim C9: `updated_at` ≥ `created_at` in every reachable state, under a
monotone clock.  `now_utc()` readings are the `now` values carried by the
operations of a trace; a monotone clock is a trace whose readings are
nondecreasing.
-/

/-- The `now_utc()` reading an operation consumes, when it consumes one. -/
def timeOf : Op → Option Nat
  | Op.createTask _ _ _ n => some n
  | Op.patchTask _ _ n => some n
  | Op.cancelTask _ n => some n
  | Op.createUser _ => none
  | Op.deleteTask _ => none

/-- The clock readings along the trace are nondecreasing, starting no
earlier than `c`. -/
def clockOK : Nat → List Op → Bool
  | _, [] => true
  | c, op :: ops =>
    match timeOf op with
    | none => clockOK c ops
    | some n => decide (c ≤ n) && clockOK n ops

/-- The last clock reading of the trace (or the start value `c`). -/
def lastClock : Nat → List Op → Nat
  | c, [] => c
  | c, op :: ops =>
    match timeOf op with
    | none => lastClock c ops
    | some n => lastClock n ops

/-- Every stored task has ordered timestamps, both bounded by `c`. -/
def timesLe (c : Nat) (s : Store) : Prop :=
  ∀ t ∈ s.tasks, t.created_at ≤ t.updated_at ∧ t.updated_at ≤ c

/-- Every stored task satisfies `created_at ≤ updated_at`. -/
def timesOrdered (s : Store) : Bool :=
  s.tasks.all (fun t => decide (t.created_at ≤ t.updated_at))

theorem timesLe_create_user (c : Nat) (s : Store) (un : String) (h : timesLe c s) :
    timesLe c (s.create_user un).2 := by
  intro t ht
  refine h t ?_
  by_cases hc : s.users.any (fun u => u.username == un) = true
  · simpa [Store.create_user, hc] using ht
  · simpa [Store.create_user, hc] using ht

theorem timesLe_delete_task (c : Nat) (s : Store) (tid : Nat) (h : timesLe c s) :
    timesLe c (s.delete_task tid).2 := by
  intro t ht
  refine h t ?_
  by_cases hc : s.tasks.any (fun x => x.id == tid) = true
  · have h2 : t ∈ s.tasks ∧ ¬ t.id = tid := by simpa [Store.delete_task, hc] using ht
    exact h2.1
  · simpa [Store.delete_task, hc] using ht

theorem timesLe_create_task (c n : Nat) (s : Store) (oid : Nat) (ti : String)
    (d : Option String) (hcn : c ≤ n) (h : timesLe c s) :
    timesLe n (s.create_task oid ti d n).2 := by
  intro t ht
  by_cases hc : s.hasUserId oid = true
  · have ht' : t ∈ s.tasks ∨ t = ⟨s.task_id_seq + 1, oid, ti, d, TaskStatus.queued, n, n⟩ := by
      simpa [Store.create_task, hc] using ht
    rcases ht' with h1 | h1
    · obtain ⟨ha, hb⟩ := h t h1
      exact ⟨ha, le_trans hb hcn⟩
    · subst h1
      exact ⟨le_refl n, le_refl n⟩
  · obtain ⟨ha, hb⟩ := h t (by simpa [Store.create_task, hc] using ht)
    exact ⟨ha, le_trans hb hcn⟩

theorem timesLe_patch_task (c n : Nat) (s : Store) (tid : Nat) (p : TaskPatch)
    (hcn : c ≤ n) (h : timesLe c s) : timesLe n (s.patch_task tid p n).2 := by
  unfold Store.patch_task
  cases hf : s.tasks.find? (fun x => x.id == tid) with
  | none =>
    intro t ht
    obtain ⟨ha, hb⟩ := h t ht
    exact ⟨ha, le_trans hb hcn⟩
  | some t0 =>
    have ht0 : t0 ∈ s.tasks := List.mem_of_find?_eq_some hf
    intro t ht
    obtain ⟨a, ha, hax⟩ := List.mem_map.mp ht
    by_cases hid : (a.id == tid) = true
    · rw [if_pos hid] at hax
      rw [← hax]
      obtain ⟨ha0, hb0⟩ := h t0 ht0
      refine ⟨?_, le_refl n⟩
      have hcr : t0.created_at ≤ n := le_trans ha0 (le_trans hb0 hcn)
      simpa [Task.applyPatch_created_at] using hcr
    · rw [if_neg hid] at hax
      rw [← hax]
      obtain ⟨ha1, hb1⟩ := h a ha
      exact ⟨ha1, le_trans hb1 hcn⟩

theorem timesLe_applyOps (ops : List Op) :
    ∀ (c : Nat) (s : Store), clockOK c ops = true → timesLe c s →
      timesLe (lastClock c ops) (applyOps s ops) := by
  induction ops with
  | nil => intro c s _ h; exact h
  | cons op rest ih =>
    intro c s hck h
    cases op with
    | createUser un =>
      exact ih c _ (by simpa [clockOK, timeOf] using hck) (timesLe_create_user c s un h)
    | deleteTask tid =>
      exact ih c _ (by simpa [clockOK, timeOf] using hck) (timesLe_delete_task c s tid h)
    | createTask oid ti d n =>
      have hck' : (decide (c ≤ n) && clockOK n rest) = true := by
        simpa [clockOK, timeOf] using hck
      rw [Bool.and_eq_true] at hck'
      exact ih n _ hck'.2
        (timesLe_create_task c n s oid ti d (of_decide_eq_true hck'.1) h)
    | patchTask tid p n =>
      have hck' : (decide (c ≤ n) && clockOK n rest) = true := by
        simpa [clockOK, timeOf] using hck
      rw [Bool.and_eq_true] at hck'
      exact ih n _ hck'.2
        (timesLe_patch_task c n s tid p (of_decide_eq_true hck'.1) h)
    | cancelTask tid n =>
      have hck' : (decide (c ≤ n) && clockOK n rest) = true := by
        simpa [clockOK, timeOf] using hck
      rw [Bool.and_eq_true] at hck'
      exact ih n _ hck'.2
        (timesLe_patch_task c n s tid ⟨none, none, some TaskStatus.cancelled⟩
          (of_decide_eq_true hck'.1) h)

/-- C9: in every state reachable from a fresh store by a trace whose clock
readings are nondecreasing, every stored task satisfies
`created_at ≤ updated_at`. -/
theorem reachable_updated_ge_created (ops : List Op) (h : clockOK 0 ops = true) :
    timesOrdered (applyOps Store.fresh ops) = true := by
  have hinv := timesLe_applyOps ops 0 Store.fresh h (by intro t ht; exact absurd ht (List.not_mem_nil t))
  unfold timesOrdered
  rw [List.all_eq_true]
  intro t ht
  exact decide_eq_true (hinv t ht).1

/-- Witness for C9 on a concrete monotone trace with a patch and a cancel. -/
theorem reachable_updated_ge_created_witness :
    timesOrdered (applyOps Store.fresh
      [Op.createUser "u", Op.createTask 1 "a" none 1, Op.patchTask 1 pDemo 2,
       Op.cancelTask 1 5]) = true :=
  reachable_updated_ge_created
    [Op.createUser "u", Op.createTask 1 "a" none 1, Op.patchTask 1 pDemo 2,
     Op.cancelTask 1 5] (by decide)

/-!
Claim C2: sequential ids 1..N, never reused.
-/

/-- Run consecutive `create_task` calls for one owner, collecting the ids of
the tasks that are returned (a failing call returns no id). -/
def runCreateTasks : Store → Nat → List (String × Option String × Nat) → List Nat × Store
  | s, _, [] => ([], s)
  | s, oid, (ti, d, n) :: rest =>
    match s.create_task oid ti d n with
    | (Except.ok t, s') =>
      let r := runCreateTasks s' oid rest
      (t.id :: r.1, r.2)
    | (Except.error _, s') => runCreateTasks s' oid rest

/-- Run consecutive `create_user` calls, collecting the ids of the users
that are returned (a failing call returns no id). -/
def runCreateUsers : Store → List String → List Nat × Store
  | s, [] => ([], s)
  | s, un :: rest =>
    match s.create_user un with
    | (Except.ok u, s') =>
      let r := runCreateUsers s' rest
      (u.id :: r.1, r.2)
    | (Except.error _, s') => runCreateUsers s' rest

/-- The task ids handed out by the successful `create_task` calls of a
trace, in call order. -/
def issuedTaskIds : Store → List Op → List Nat
  | _, [] => []
  | s, Op.createTask oid ti d n :: ops =>
    match s.create_task oid ti d n with
    | (Except.ok t, s') => t.id :: issuedTaskIds s' ops
    | (Except.error _, s') => issuedTaskIds s' ops
  | s, op :: ops => issuedTaskIds (s.step op) ops

theorem runCreateTasks_ids (args : List (String × Option String × Nat)) :
    ∀ (s : Store) (oid : Nat), s.hasUserId oid = true →
      (runCreateTasks s oid args).1 = List.range' (s.task_id_seq + 1) args.length := by
  induction args with
  | nil => intro s oid _; rfl
  | cons arg rest ih =>
    intro s oid h
    obtain ⟨ti, d, n⟩ := arg
    simp only [runCreateTasks, Store.create_task, if_pos h]
    rw [ih _ oid (by simpa [Store.hasUserId] using h)]
    simp [List.range'_succ]

theorem runCreateUsers_ids (names : List String) :
    ∀ s : Store, names.Nodup →
      (∀ x ∈ names, ∀ u ∈ s.users, u.username ≠ x) →
      (runCreateUsers s names).1 = List.range' (s.user_id + 1) names.length := by
  induction names with
  | nil => intro s _ _; rfl
  | cons un rest ih =>
    intro s hnd habs
    have hg : ¬ (s.users.any (fun u => u.username == un) = true) := by
      simp only [List.any_eq_true]
      rintro ⟨u, hu, hbe⟩
      exact habs un (List.mem_cons_self un rest) u hu (by simpa using hbe)
    simp only [runCreateUsers, Store.create_user, if_neg hg]
    rw [List.nodup_cons] at hnd
    rw [ih _ hnd.2 ?_]
    · simp [List.range'_succ]
    · intro x hx u hu
      have hu' : u ∈ s.users ∨ u = ⟨s.user_id + 1, un⟩ := by simpa using hu
      rcases hu' with h1 | h1
      · exact habs x (List.mem_cons_of_mem un hx) u h1
      · subst h1
        intro hcontra
        simp only at hcontra
        exact hnd.1 (hcontra ▸ hx)

theorem step_task_id_seq_of_untimed (s : Store) (op : Op)
    (h : ∀ oid ti d n, op ≠ Op.createTask oid ti d n) :
    (s.step op).task_id_seq = s.task_id_seq := by
  cases op with
  | createUser un =>
    by_cases hc : s.users.any (fun u => u.username == un) = true
    · simp [Store.step, Store.create_user, hc]
    · simp [Store.step, Store.create_user, hc]
  | createTask oid ti d n => exact absurd rfl (h oid ti d n)
  | patchTask tid p n =>
    simp only [Store.step, Store.patch_task]
    cases hf : s.tasks.find? (fun x => x.id == tid) with
    | none => rfl
    | some t => rfl
  | deleteTask tid =>
    by_cases hc : s.tasks.any (fun x => x.id == tid) = true
    · simp [Store.step, Store.delete_task, hc]
    · simp [Store.step, Store.delete_task, hc]
  | cancelTask tid n =>
    simp only [Store.step, Store.cancel_task, Store.patch_task]
    cases hf : s.tasks.find? (fun x => x.id == tid) with
    | none => rfl
    | some t => rfl

theorem issuedTaskIds_gt (ops : List Op) :
    ∀ s : Store, ∀ i ∈ issuedTaskIds s ops, s.task_id_seq < i := by
  induction ops with
  | nil => intro s i hi; exact absurd hi (List.not_mem_nil i)
  | cons op rest ih =>
    intro s i hi
    cases op with
    | createTask oid ti d n =>
      by_cases hc : s.hasUserId oid = true
      · have hi' : i = s.task_id_seq + 1 ∨
            i ∈ issuedTaskIds { s with task_id_seq := s.task_id_seq + 1, tasks := s.tasks ++ [⟨s.task_id_seq + 1, oid, ti, d, TaskStatus.queued, n, n⟩] } rest := by
          simpa [issuedTaskIds, Store.create_task, if_pos hc] using hi
        rcases hi' with h1 | h1
        · rw [h1]; exact Nat.lt_succ_self _
        · have := ih _ i h1
          simp only at this
          exact Nat.lt_of_succ_lt this
      · have hi' : i ∈ issuedTaskIds s rest := by
          simpa [issuedTaskIds, Store.create_task, hc] using hi
        exact ih s i hi'
    | createUser un =>
      have hi' : i ∈ issuedTaskIds (s.step (Op.createUser un)) rest := by
        simpa [issuedTaskIds] using hi
      have := ih _ i hi'
      rwa [step_task_id_seq_of_untimed s _ (by intro oid ti d n hcon; cases hcon)] at this
    | patchTask tid p n =>
      have hi' : i ∈ issuedTaskIds (s.step (Op.patchTask tid p n)) rest := by
        simpa [issuedTaskIds] using hi
      have := ih _ i hi'
      rwa [step_task_id_seq_of_untimed s _ (by intro oid ti d n hcon; cases hcon)] at this
    | deleteTask tid =>
      have hi' : i ∈ issuedTaskIds (s.step (Op.deleteTask tid)) rest := by
        simpa [issuedTaskIds] using hi
      have := ih _ i hi'
      rwa [step_task_id_seq_of_untimed s _ (by intro oid ti d n hcon; cases hcon)] at this
    | cancelTask tid n =>
      have hi' : i ∈ issuedTaskIds (s.step (Op.cancelTask tid n)) rest := by
        simpa [issuedTaskIds] using hi
      have := ih _ i hi'
      rwa [step_task_id_seq_of_untimed s _ (by intro oid ti d n hcon; cases hcon)] at this

theorem issuedTaskIds_nodup (ops : List Op) :
    ∀ s : Store, (issuedTaskIds s ops).Nodup := by
  induction ops with
  | nil => intro s; exact List.nodup_nil
  | cons op rest ih =>
    intro s
    cases op with
    | createTask oid ti d n =>
      by_cases hc : s.hasUserId oid = true
      · have heq : issuedTaskIds s (Op.createTask oid ti d n :: rest) =
            (s.task_id_seq + 1) :: issuedTaskIds { s with task_id_seq := s.task_id_seq + 1, tasks := s.tasks ++ [⟨s.task_id_seq + 1, oid, ti, d, TaskStatus.queued, n, n⟩] } rest := by
          simp [issuedTaskIds, Store.create_task, if_pos hc]
        rw [heq, List.nodup_cons]
        refine ⟨?_, ih _⟩
        intro hmem
        have := issuedTaskIds_gt rest _ _ hmem
        simp only at this
        exact absurd this (Nat.lt_irrefl _)
      · have heq : issuedTaskIds s (Op.createTask oid ti d n :: rest) =
            issuedTaskIds s rest := by
          simp [issuedTaskIds, Store.create_task, hc]
        rw [heq]
        exact ih s
    | createUser un => exact ih _
    | patchTask tid p n => exact ih _
    | deleteTask tid => exact ih _
    | cancelTask tid n => exact ih _

/-- C2: the ids of N consecutive successful `create_task` calls on a store
whose task counter is fresh (0) are exactly 1..N in call order; likewise for
`create_user` with distinct usernames on a fresh store; and along any trace
of operations — deletions included — no task id is ever handed out twice. -/
theorem sequential_ids :
    (∀ (s : Store) (oid : Nat) (args : List (String × Option String × Nat)),
        s.hasUserId oid = true → s.task_id_seq = 0 →
        (runCreateTasks s oid args).1 = List.range' 1 args.length) ∧
    (∀ names : List String, names.Nodup →
        (runCreateUsers Store.fresh names).1 = List.range' 1 names.length) ∧
    (∀ ops : List Op, (issuedTaskIds Store.fresh ops).Nodup) := by
  refine ⟨?_, ?_, ?_⟩
  · intro s oid args h h0
    have := runCreateTasks_ids args s oid h
    rwa [h0] at this
  · intro names hn
    have := runCreateUsers_ids names Store.fresh hn ?_
    · simpa [Store.fresh] using this
    · intro x hx u hu
      exact absurd hu (List.not_mem_nil u)
  · intro ops
    exact issuedTaskIds_nodup ops Store.fresh

/-- Witness for C2: two task creations on a one-user store yield ids 1 and
2; two distinct user creations yield ids 1 and 2; a trace that creates,
deletes and creates again hands out distinct task ids. -/
theorem sequential_ids_witness :
    (runCreateTasks ⟨[⟨1, "u"⟩], [], 0, 1⟩ 1 [("a", none, 0), ("b", some "d", 1)]).1 =
      List.range' 1 2 ∧
    (runCreateUsers Store.fresh ["aa", "bb"]).1 = List.range' 1 2 ∧
    (issuedTaskIds Store.fresh
      [Op.createUser "aa", Op.createTask 1 "x" none 0, Op.deleteTask 1,
       Op.createTask 1 "y" none 2]).Nodup :=
  ⟨sequential_ids.1 ⟨[⟨1, "u"⟩], [], 0, 1⟩ 1 [("a", none, 0), ("b", some "d", 1)] rfl rfl,
   sequential_ids.2.1 ["aa", "bb"] (by decide),
   sequential_ids.2.2
     [Op.createUser "aa", Op.createTask 1 "x" none 0, Op.deleteTask 1,
      Op.createTask 1 "y" none 2]⟩

end TodoUsers
